import Mathlib

set_option maxRecDepth 8000

/-!
Verification of `monitor_serial.py`, a serial-port monitor script.

The script opens a serial device, polls it for 10 seconds, decodes arriving
bytes as UTF-8 with `errors='ignore'`, echoes them to standard output, prints
framing lines, and closes the device; any exception is reported as
`Error: <message>` followed by `sys.exit(1)`.

The embedding models:
- the lenient UTF-8 decoder (`bytes.decode('utf-8', errors='ignore')`,
  CPython semantics: on an error the maximal subpart of a well-formed
  sequence is dropped and decoding resumes at the offending byte; a
  truncated sequence at the end of the input is dropped);
- the poll loop over an environment that supplies, for each loop-condition
  check, the wall-clock reading and the poll outcome (buffered bytes, or a
  read exception);
- the whole program run: stdout contents, exit status, and whether
  `ser.close()` was reached.
-/

/-! ### Lenient UTF-8 decoding, as a byte-level state machine -/

/-- Is `b` a UTF-8 continuation byte (`0x80 ≤ b ≤ 0xBF`)? -/
def contByte (b : Nat) : Bool := 0x80 ≤ b && b < 0xC0

/-- Valid range for the first continuation byte of a 3-byte sequence with
lead byte `b0` (CPython rejects overlong forms and surrogates here). -/
def cont3first (b0 b1 : Nat) : Bool :=
  if b0 = 0xE0 then 0xA0 ≤ b1 && b1 < 0xC0
  else if b0 = 0xED then 0x80 ≤ b1 && b1 < 0xA0
  else contByte b1

/-- Valid range for the first continuation byte of a 4-byte sequence with
lead byte `b0` (CPython rejects overlong forms and values above U+10FFFF). -/
def cont4first (b0 b1 : Nat) : Bool :=
  if b0 = 0xF0 then 0x90 ≤ b1 && b1 < 0xC0
  else if b0 = 0xF4 then 0x80 ≤ b1 && b1 < 0x90
  else contByte b1

/-- Code point of a 2-byte UTF-8 sequence. -/
def cp2 (b0 b1 : Nat) : Nat := (b0 - 0xC0) * 0x40 + (b1 - 0x80)

/-- Decoder state: `start`, or inside a partially read multi-byte sequence.
`s2 b0` remembers the 2-byte lead; `s3a b0` a 3-byte lead; `s4a b0` a 4-byte
lead; `s3b`/`s4b`/`s4c` carry the partial code point accumulated so far. -/
inductive Ust where
  | start : Ust
  | s2 (b0 : Nat) : Ust
  | s3a (b0 : Nat) : Ust
  | s3b (acc : Nat) : Ust
  | s4a (b0 : Nat) : Ust
  | s4b (acc : Nat) : Ust
  | s4c (acc : Nat) : Ust
deriving DecidableEq

/-- Transition on byte `b` from the `start` state: an ASCII byte is emitted,
an invalid byte (`0x80`–`0xC1`, `0xF5`–) is dropped, a lead byte opens a
multi-byte sequence. -/
def utf8Start (b : Nat) : List Char × Ust :=
  if b < 0x80 then ([Char.ofNat b], .start)
  else if b < 0xC2 then ([], .start)
  else if b < 0xE0 then ([], .s2 b)
  else if b < 0xF0 then ([], .s3a b)
  else if b < 0xF5 then ([], .s4a b)
  else ([], .start)

/-- One decoder transition: emitted characters and next state.  When a byte
cannot continue the pending sequence, the pending bytes are dropped (the
maximal subpart of a well-formed sequence) and the byte is reprocessed as a
fresh start, exactly as CPython's `errors='ignore'` handler does. -/
def utf8Step : Ust → Nat → List Char × Ust
  | .start, b => utf8Start b
  | .s2 b0, b =>
    if contByte b then ([Char.ofNat (cp2 b0 b)], .start) else utf8Start b
  | .s3a b0, b =>
    if cont3first b0 b then ([], .s3b ((b0 - 0xE0) * 0x40 + (b - 0x80))) else utf8Start b
  | .s3b acc, b =>
    if contByte b then ([Char.ofNat (acc * 0x40 + (b - 0x80))], .start) else utf8Start b
  | .s4a b0, b =>
    if cont4first b0 b then ([], .s4b ((b0 - 0xF0) * 0x40 + (b - 0x80))) else utf8Start b
  | .s4b acc, b =>
    if contByte b then ([], .s4c (acc * 0x40 + (b - 0x80))) else utf8Start b
  | .s4c acc, b =>
    if contByte b then ([Char.ofNat (acc * 0x40 + (b - 0x80))], .start) else utf8Start b

/-- Characters emitted when decoding `l` starting from state `s`; a sequence
still pending at the end of the input is dropped. -/
def utf8Run (s : Ust) : List Nat → List Char
  | [] => []
  | b :: rest => (utf8Step s b).1 ++ utf8Run (utf8Step s b).2 rest

/-- Decoder state after consuming `l` from state `s`. -/
def utf8State (s : Ust) : List Nat → Ust
  | [] => s
  | b :: rest => utf8State (utf8Step s b).2 rest

/-- Result of `bytes.decode('utf-8', errors='ignore')` on a byte list. -/
def decodeUtf8Ignore (l : List Nat) : List Char := utf8Run .start l

/-- Strict-validity transition: `none` on any byte that CPython's strict
UTF-8 decoder would reject in this state. -/
def validStep : Ust → Nat → Option Ust
  | .start, b =>
    if b < 0x80 then some .start
    else if b < 0xC2 then none
    else if b < 0xE0 then some (.s2 b)
    else if b < 0xF0 then some (.s3a b)
    else if b < 0xF5 then some (.s4a b)
    else none
  | .s2 _, b => if contByte b then some .start else none
  | .s3a b0, b =>
    if cont3first b0 b then some (.s3b ((b0 - 0xE0) * 0x40 + (b - 0x80))) else none
  | .s3b _, b => if contByte b then some .start else none
  | .s4a b0, b =>
    if cont4first b0 b then some (.s4b ((b0 - 0xF0) * 0x40 + (b - 0x80))) else none
  | .s4b acc, b => if contByte b then some (.s4c (acc * 0x40 + (b - 0x80))) else none
  | .s4c _, b => if contByte b then some .start else none

/-- Does `l` continue validly from state `s` and end on a character
boundary? -/
def validFrom (s : Ust) : List Nat → Bool
  | [] => decide (s = .start)
  | b :: rest =>
    match validStep s b with
    | some s2 => validFrom s2 rest
    | none => false

/-- Is the byte list well-formed UTF-8 (strict decoding succeeds)? -/
def isValidUtf8 (l : List Nat) : Bool := validFrom .start l

/-! ### The monitor program

`monitor_serial.py`:
```
try:
    ser = serial.Serial('/dev/cu.SLAB_USBtoUART', 115200, timeout=1)
    print("Connected to ESP32. Monitoring output for 10 seconds...")
    print("-" * 60)

    start_time = time.time()
    while time.time() - start_time < 10:
        if ser.in_waiting > 0:
            data = ser.read(ser.in_waiting).decode('utf-8', errors='ignore')
            print(data, end='')
            sys.stdout.flush()
        time.sleep(0.1)

    print("\x7b" + "-" * 60)        -- in the source: "\n" + "-" * 60
    print("Monitoring complete.")
    ser.close()

except Exception as e:
    print(f"Error: \x7be\x7d")
    sys.exit(1)
```

The environment fixes the non-deterministic inputs of a run: whether `open`
raises, the wall-clock value read at each `while` check together with what
that iteration's poll finds (`in_waiting` bytes, or a raised read error),
and whether `close` raises.  Times are integers counted in milliseconds, so
the script's constants become: monitoring duration 10 s = `10000`, poll
interval 0.1 s = `100`, read timeout 1 s = `1000`. -/

/-- The monitoring duration: 10 seconds, in milliseconds. -/
def durationMs : Int := 10000

/-- The poll interval: `time.sleep(0.1)`, in milliseconds. -/
def pollMs : Int := 100

/-- The read timeout passed to `serial.Serial(..., timeout=1)`, in
milliseconds. -/
def timeoutMs : Int := 1000

/-- The decoded text of one chunk, as printed by `print(data, end='')`. -/
def decodeStr (bs : List Nat) : String := String.mk (decodeUtf8Ignore bs)

/-- The status line `"Connected to ESP32. Monitoring output for 10
seconds..."` plus the newline `print` appends. -/
def statusLine : String := "Connected to ESP32. Monitoring output for 10 seconds...\n"

/-- The separator text `"-" * 60`. -/
def sep60 : String := String.mk (List.replicate 60 '-')

/-- A separator line as printed: 60 dashes plus newline. -/
def sepLine : String := sep60 ++ "\n"

/-- The completion message `"Monitoring complete."` plus newline. -/
def completeLine : String := "Monitoring complete.\n"

/-- Output of the `except` handler print for message `m`. -/
def errorLine (m : String) : String := "Error: " ++ m ++ "\n"

/-- What one poll-loop iteration finds: `buffer bs` when `ser.in_waiting`
equals `bs.length` and `ser.read` returns `bs` (the empty list models
`in_waiting == 0`); `readErr m` when the read raises with message `m`. -/
inductive PollEvent where
  | buffer (bs : List Nat) : PollEvent
  | readErr (m : String) : PollEvent
deriving DecidableEq

/-- One `while`-condition check: the value `time.time()` returns there, and
the poll outcome the iteration would see if entered. -/
structure Tick where
  t : Int
  ev : PollEvent
deriving DecidableEq

/-- A run's environment: open outcome, start time, per-check clock/poll
outcomes, close outcome. -/
structure Env where
  openErr : Option String
  t0 : Int
  ticks : List Tick
  closeErr : Option String

/-- Text printed by the poll loop (`print(data, end='')` per non-empty
read), up to normal exit or a raised read error. -/
def loopOut (t0 : Int) : List Tick → String
  | [] => ""
  | tk :: rest =>
    if tk.t - t0 < durationMs then
      match tk.ev with
      | .buffer bs => (if 0 < bs.length then decodeStr bs else "") ++ loopOut t0 rest
      | .readErr _ => ""
    else ""

/-- The message of the read error that aborts the poll loop, if any. -/
def loopErr (t0 : Int) : List Tick → Option String
  | [] => none
  | tk :: rest =>
    if tk.t - t0 < durationMs then
      match tk.ev with
      | .buffer _ => loopErr t0 rest
      | .readErr m => some m
    else none

/-- Number of loop iterations entered (checks whose condition held). -/
def loopIters (t0 : Int) : List Tick → Nat
  | [] => 0
  | tk :: rest =>
    if tk.t - t0 < durationMs then
      match tk.ev with
      | .buffer _ => loopIters t0 rest + 1
      | .readErr _ => 1
    else 0

/-- A run's observable outcome: everything written to stdout, the process
exit status, and whether `ser.close()` was reached. -/
structure RunResult where
  out : String
  exitCode : Nat
  closeCalled : Bool
deriving DecidableEq

/-- One full run of `monitor_serial.py` in environment `env`. -/
def run (env : Env) : RunResult :=
  match env.openErr with
  | some m => ⟨errorLine m, 1, false⟩
  | none =>
    match loopErr env.t0 env.ticks with
    | some m =>
      ⟨statusLine ++ sepLine ++ loopOut env.t0 env.ticks ++ errorLine m, 1, false⟩
    | none =>
      match env.closeErr with
      | some m =>
        ⟨statusLine ++ sepLine ++ loopOut env.t0 env.ticks ++ "\n" ++ sepLine ++
          completeLine ++ errorLine m, 1, true⟩
      | none =>
        ⟨statusLine ++ sepLine ++ loopOut env.t0 env.ticks ++ "\n" ++ sepLine ++
          completeLine, 0, true⟩

/-- Concatenation of a list of strings, in order. -/
def concatAll (l : List String) : String := l.foldr (· ++ ·) ""

/-- The byte chunks the poll loop reads: contents of the non-empty buffers
found at checks inside the monitoring window, up to the first check at or
past the deadline.  (Stated in the spec's terms: "all byte sequences written
to the device during the monitoring window", in arrival order.) -/
def windowChunks (t0 : Int) (ticks : List Tick) : List (List Nat) :=
  (ticks.takeWhile fun tk => decide (tk.t - t0 < durationMs)).filterMap fun tk =>
    match tk.ev with
    | .buffer bs => if 0 < bs.length then some bs else none
    | .readErr _ => none

/-- Successive checks are at least a poll interval and at most a read
timeout plus a poll interval apart. -/
def stepOK (prev : Int) : List Tick → Bool
  | [] => true
  | tk :: rest =>
    decide (prev + pollMs ≤ tk.t) && decide (tk.t ≤ prev + (timeoutMs + pollMs)) &&
      stepOK tk.t rest

/-- Clock discipline of a run: the first check happens at or after the
recorded start and within one iteration of it, and later checks follow
`stepOK`. -/
def timesOK (t0 : Int) : List Tick → Bool
  | [] => true
  | tk :: rest =>
    decide (t0 ≤ tk.t) && decide (tk.t ≤ t0 + (timeoutMs + pollMs)) && stepOK tk.t rest

/-- Like `stepOK` but without the lower bound on the first gap. -/
def gapsOK (prev : Int) : List Tick → Bool
  | [] => true
  | tk :: rest => decide (tk.t ≤ prev + (timeoutMs + pollMs)) && stepOK tk.t rest

example : decodeUtf8Ignore [0x68, 0x69] = ['h', 'i'] := by decide
example : decodeUtf8Ignore [0xC3, 0xA9] = ['é'] := by decide
example : decodeUtf8Ignore [0xC3] = [] := by decide
example : decodeUtf8Ignore [0xA9] = [] := by decide
example : decodeUtf8Ignore [0xFF, 0x4F, 0x4B, 0x0A] = ['O', 'K', '\n'] := by decide
example : decodeUtf8Ignore [0xE2, 0x82, 0x41] = ['A'] := by decide
example : decodeUtf8Ignore [0xE2, 0x82, 0xAC] = ['€'] := by decide
example : decodeUtf8Ignore [0xF0, 0x9F, 0x98, 0x80] = ['😀'] := by decide
example : decodeUtf8Ignore [0xC3, 0xC3, 0xA9] = ['é'] := by decide
example : decodeUtf8Ignore [0xED, 0xA0, 0x80, 0x41] = ['A'] := by decide
example : decodeUtf8Ignore [0xE0, 0x9F, 0x80] = [] := by decide
example : isValidUtf8 [0xC3, 0xA9] = true := by decide
example : isValidUtf8 [0xC3] = false := by decide
example : isValidUtf8 [0xE2, 0x82, 0xAC, 0x41] = true := by decide
example : isValidUtf8 [0xED, 0xA0, 0x80] = false := by decide

example :
    run ⟨none, 0, [⟨0, .buffer [0x68, 0x69]⟩], none⟩ =
      ⟨statusLine ++ sepLine ++ "hi" ++ "\n" ++ sepLine ++ completeLine, 0, true⟩ := by
  decide

example : run ⟨some "boom", 0, [], none⟩ = ⟨"Error: boom\n", 1, false⟩ := by decide

example :
    run ⟨none, 0, [⟨0, .readErr "bad read"⟩], none⟩ =
      ⟨statusLine ++ sepLine ++ "Error: bad read\n", 1, false⟩ := by decide

example :
    run ⟨none, 0, [⟨10000, .buffer [0x68]⟩], none⟩ =
      ⟨statusLine ++ sepLine ++ "\n" ++ sepLine ++ completeLine, 0, true⟩ := by decide

/-! ### Decoder lemmas -/

/-- Decoding is a run of a state machine: output over a concatenation is the
output over the first part followed by the output over the second part,
continued from the reached state. -/
theorem utf8Run_append (a : List Nat) (s : Ust) (b : List Nat) :
    utf8Run s (a ++ b) = utf8Run s a ++ utf8Run (utf8State s a) b := by
  induction a generalizing s with
  | nil => simp [utf8Run, utf8State]
  | cons x a ih => simp [utf8Run, utf8State, ih]

/-- The strict-validity transition agrees with the lenient decoder's
transition whenever it accepts. -/
theorem validStep_state {s : Ust} {b : Nat} {s2 : Ust} (h : validStep s b = some s2) :
    (utf8Step s b).2 = s2 := by
  cases s <;> simp [validStep, utf8Step, utf8Start] at h ⊢ <;>
    split_ifs at h ⊢ <;> simp_all

/-- A strictly valid byte list returns the decoder to the `start` state. -/
theorem validFrom_state (l : List Nat) : ∀ s : Ust, validFrom s l = true → utf8State s l = .start := by
  induction l with
  | nil => intro s h; simpa [validFrom, utf8State] using h
  | cons b rest ih =>
    intro s h
    simp only [validFrom] at h
    rcases hs : validStep s b with _ | s2
    · rw [hs] at h; exact absurd h (by simp)
    · rw [hs] at h
      simp only [utf8State, validStep_state hs]
      exact ih s2 h

/-- Lenient decoding distributes over concatenation when the first part is
well-formed UTF-8. -/
theorem decode_append_of_valid {a : List Nat} (h : isValidUtf8 a = true) (b : List Nat) :
    decodeUtf8Ignore (a ++ b) = decodeUtf8Ignore a ++ decodeUtf8Ignore b := by
  unfold decodeUtf8Ignore
  rw [utf8Run_append, validFrom_state a .start h]

/-- Lenient decoding of a concatenation of well-formed chunks is the
concatenation of their decodings. -/
theorem decode_flatten_of_valid :
    ∀ chunks : List (List Nat), (∀ c ∈ chunks, isValidUtf8 c = true) →
      decodeUtf8Ignore chunks.flatten = (chunks.map decodeUtf8Ignore).flatten := by
  intro chunks h
  induction chunks with
  | nil => simp [decodeUtf8Ignore, utf8Run]
  | cons c cs ih =>
    simp only [List.flatten_cons, List.map_cons]
    rw [decode_append_of_valid (h c (by simp)) cs.flatten,
      ih (fun x hx => h x (by simp [hx]))]

/-! ### Poll-loop lemmas -/

theorem stringMk_append (a b : List Char) : String.mk (a ++ b) = String.mk a ++ String.mk b := rfl

theorem concatAll_decodeStr (ls : List (List Nat)) :
    concatAll (ls.map decodeStr) = String.mk (ls.map decodeUtf8Ignore).flatten := by
  induction ls with
  | nil => rfl
  | cons c cs ih => simp only [List.map_cons, List.flatten_cons, concatAll, List.foldr] at ih ⊢
                    rw [ih, stringMk_append]; rfl

/-- When no read error aborts the loop, the loop's printed text is exactly
the concatenation of the lenient decodings of the chunks it read, in order,
with nothing inserted between them. -/
theorem loopOut_eq_chunks (t0 : Int) (ticks : List Tick) (herr : loopErr t0 ticks = none) :
    loopOut t0 ticks = concatAll ((windowChunks t0 ticks).map decodeStr) := by
  induction ticks with
  | nil => rfl
  | cons tk rest ih =>
    by_cases hw : tk.t - t0 < durationMs
    · cases hev : tk.ev with
      | buffer bs =>
        have herr2 : loopErr t0 rest = none := by
          simpa [loopErr, hw, hev] using herr
        by_cases hb : 0 < bs.length
        · simp [loopOut, windowChunks, List.takeWhile_cons, hw, hev, hb,
            List.filterMap_cons, concatAll] at ih ⊢
          rw [ih herr2]
        · simp [loopOut, windowChunks, List.takeWhile_cons, hw, hev, hb,
            List.filterMap_cons, concatAll] at ih ⊢
          rw [ih herr2]
      | readErr m => simp [loopErr, hw, hev] at herr
    · simp [loopOut, windowChunks, List.takeWhile_cons, hw, concatAll]

/-- Silent window: every in-window check finds an empty buffer, so the loop
prints nothing and raises nothing. -/
theorem loop_silent (t0 : Int) (ticks : List Tick)
    (h : ∀ tk ∈ ticks, tk.t - t0 < durationMs → tk.ev = PollEvent.buffer []) :
    loopOut t0 ticks = "" ∧ loopErr t0 ticks = none := by
  induction ticks with
  | nil => exact ⟨rfl, rfl⟩
  | cons tk rest ih =>
    by_cases hw : tk.t - t0 < durationMs
    · have hev := h tk (by simp) hw
      have ih2 := ih (fun x hx hwx => h x (by simp [hx]) hwx)
      simp [loopOut, loopErr, hw, hev, ih2.1, ih2.2]
    · simp [loopOut, loopErr, hw]

/-! ### Claims -/

/-- Claim C1, counterexample: in a run where `open` succeeded and a read
error occurred mid-loop, the program exits with status 1 without ever
reaching `ser.close()` — the handle is not released on this exit path. -/
theorem claim_C1_counterexample :
    ((⟨none, 0, [⟨0, .readErr "boom"⟩], none⟩ : Env).openErr = none) ∧
    (run ⟨none, 0, [⟨0, .readErr "boom"⟩], none⟩).closeCalled = false ∧
    (run ⟨none, 0, [⟨0, .readErr "boom"⟩], none⟩).exitCode = 1 := by decide

/-- Claim C1, amended: `ser.close()` is reached exactly when `open` succeeded
and the poll loop finished without an exception; on failure during the poll
loop (and on open failure) close is never attempted. -/
theorem claim_C1_close_iff (env : Env) :
    (run env).closeCalled = true ↔ env.openErr = none ∧ loopErr env.t0 env.ticks = none := by
  rcases env with ⟨op, t0, ticks, cl⟩
  cases op <;> cases h : loopErr t0 ticks <;> cases cl <;> simp [run, h]

/-- Claim C2, counterexample: for a successful run with no data, stdout does
not have the claimed shape "separator, status line, separator, newline,
separator, completion": the status line in fact precedes the first separator
and only two separators are printed. -/
theorem claim_C2_counterexample :
    (run ⟨none, 0, [], none⟩).exitCode = 0 ∧
    (run ⟨none, 0, [], none⟩).out ≠
      sepLine ++ statusLine ++ sepLine ++ "\n" ++ sepLine ++ completeLine := by decide

/-- Claim C2, amended: in every run in which the device opens, no bytes
arrive during the window and close succeeds, stdout is exactly: status line,
separator of 60 dashes, a bare newline, a second separator, completion
message — and the exit status is 0. -/
theorem claim_C2_no_data_output (env : Env) (hopen : env.openErr = none)
    (hclose : env.closeErr = none)
    (hsilent : ∀ tk ∈ env.ticks, tk.t - env.t0 < durationMs → tk.ev = PollEvent.buffer []) :
    (run env).out = statusLine ++ sepLine ++ "\n" ++ sepLine ++ completeLine ∧
    (run env).exitCode = 0 := by
  obtain ⟨ho, he⟩ := loop_silent env.t0 env.ticks hsilent
  simp [run, hopen, hclose, he, ho]

/-- Witness for C2 at a concrete environment with one silent in-window
check. -/
theorem claim_C2_witness :
    (run ⟨none, 0, [⟨0, .buffer []⟩], none⟩).out =
      statusLine ++ sepLine ++ "\n" ++ sepLine ++ completeLine ∧
    (run ⟨none, 0, [⟨0, .buffer []⟩], none⟩).exitCode = 0 :=
  claim_C2_no_data_output _ rfl rfl (by decide)

/-- Claim C3, counterexample: the 2-byte character `é` (`0xC3 0xA9`) split
across two polls is dropped entirely by per-chunk lenient decoding, while
the lenient decoding of the whole delivered byte sequence keeps it: the
concatenation of printed chunks differs from the decode of the whole. -/
theorem claim_C3_counterexample :
    loopErr 0 [⟨0, .buffer [0xC3]⟩, ⟨100, .buffer [0xA9]⟩] = none ∧
    loopOut 0 [⟨0, .buffer [0xC3]⟩, ⟨100, .buffer [0xA9]⟩] ≠
      decodeStr (windowChunks 0 [⟨0, .buffer [0xC3]⟩, ⟨100, .buffer [0xA9]⟩]).flatten := by
  decide

/-- Claim C3, amended: when no chunk boundary splits a multi-byte character
(each per-poll chunk is well-formed UTF-8), the text printed by the monitor
equals the lenient decoding of the whole delivered byte sequence. -/
theorem claim_C3_roundtrip (t0 : Int) (ticks : List Tick)
    (herr : loopErr t0 ticks = none)
    (hvalid : ∀ c ∈ windowChunks t0 ticks, isValidUtf8 c = true) :
    loopOut t0 ticks = decodeStr (windowChunks t0 ticks).flatten := by
  rw [loopOut_eq_chunks t0 ticks herr, concatAll_decodeStr]
  simp only [decodeStr]
  rw [decode_flatten_of_valid _ hvalid]

/-- Witness for C3 at a concrete environment delivering `"hi"`. -/
theorem claim_C3_witness :
    loopErr 0 [⟨0, .buffer [0x68, 0x69]⟩] = none ∧
    loopOut 0 [⟨0, .buffer [0x68, 0x69]⟩] =
      decodeStr (windowChunks 0 [⟨0, .buffer [0x68, 0x69]⟩]).flatten :=
  ⟨by decide, claim_C3_roundtrip 0 _ (by decide) (by decide)⟩

/-- Claim C4: the exit status is 0 exactly on runs where open, the poll
loop and close all succeed, 1 on any failure, and nothing else. -/
theorem claim_C4_exit_codes (env : Env) :
    ((run env).exitCode = 0 ∨ (run env).exitCode = 1) ∧
    ((run env).exitCode = 0 ↔
      env.openErr = none ∧ loopErr env.t0 env.ticks = none ∧ env.closeErr = none) := by
  rcases env with ⟨op, t0, ticks, cl⟩
  cases op <;> cases h : loopErr t0 ticks <;> cases cl <;> simp [run, h]

/-- Claim C5: when `open` fails, stdout is exactly `Error: <message>` (no
separator or status line) and the exit status is 1. -/
theorem claim_C5_open_fail (env : Env) (m : String) (h : env.openErr = some m) :
    (run env).out = "Error: " ++ m ++ "\n" ∧ (run env).exitCode = 1 := by
  simp [run, h, errorLine]

/-- Witness for C5 at a concrete failing open. -/
theorem claim_C5_witness :
    (run ⟨some "boom", 0, [], none⟩).out = "Error: " ++ "boom" ++ "\n" ∧
    (run ⟨some "boom", 0, [], none⟩).exitCode = 1 :=
  claim_C5_open_fail _ "boom" rfl

/-- Claim C7: malformed bytes never fail the run — for every byte content
(valid or not) a run whose open, reads and close succeed exits with status 0
and prints the lenient decoding of each chunk between the usual framing. -/
theorem claim_C7_malformed_safe (env : Env) (hopen : env.openErr = none)
    (hclose : env.closeErr = none) (hread : loopErr env.t0 env.ticks = none) :
    (run env).exitCode = 0 ∧
    (run env).out =
      statusLine ++ sepLine ++ concatAll ((windowChunks env.t0 env.ticks).map decodeStr) ++
        "\n" ++ sepLine ++ completeLine := by
  rw [← loopOut_eq_chunks _ _ hread]
  simp [run, hopen, hclose, hread]

/-- Witness for C7: the invalid byte `0xFF` followed by `OK\n` is decoded by
dropping the bad byte; the run still exits 0. -/
theorem claim_C7_witness :
    (run ⟨none, 0, [⟨0, .buffer [0xFF, 0x4F, 0x4B, 0x0A]⟩], none⟩).exitCode = 0 ∧
    decodeStr [0xFF, 0x4F, 0x4B, 0x0A] = "OK\n" :=
  ⟨(claim_C7_malformed_safe _ rfl rfl (by decide)).1, by decide⟩

/-- Claim C8: the poll loop prints, for each in-window check in order,
exactly the lenient decoding of the bytes found buffered there (nothing for
an empty buffer), with no inserted line breaks. -/
theorem claim_C8_poll_loop (t0 : Int) (ticks : List Tick)
    (herr : loopErr t0 ticks = none) :
    loopOut t0 ticks = concatAll ((windowChunks t0 ticks).map decodeStr) :=
  loopOut_eq_chunks t0 ticks herr

/-- Witness for C8: data, then a silent poll, then data. -/
theorem claim_C8_witness :
    loopOut 0 [⟨0, .buffer [0x68]⟩, ⟨100, .buffer []⟩, ⟨200, .buffer [0x69]⟩] =
      concatAll
        ((windowChunks 0 [⟨0, .buffer [0x68]⟩, ⟨100, .buffer []⟩, ⟨200, .buffer [0x69]⟩]).map
          decodeStr) :=
  claim_C8_poll_loop 0 _ (by decide)

/-- Claim C10: when a read error aborts the loop, everything printed so far
(header and partial device data) stays on stdout, `Error: <message>` is
appended after it, and the exit status is 1. -/
theorem claim_C10_error_append (env : Env) (m : String) (hopen : env.openErr = none)
    (herr : loopErr env.t0 env.ticks = some m) :
    (run env).out = statusLine ++ sepLine ++ loopOut env.t0 env.ticks ++ errorLine m ∧
    (run env).exitCode = 1 := by
  simp [run, hopen, herr]

/-- Witness for C10: `"hi"` is printed, then the read fails. -/
theorem claim_C10_witness :
    (run ⟨none, 0, [⟨0, .buffer [0x68, 0x69]⟩, ⟨100, .readErr "bad"⟩], none⟩).out =
      statusLine ++ sepLine ++
        loopOut 0 [⟨0, .buffer [0x68, 0x69]⟩, ⟨100, .readErr "bad"⟩] ++ errorLine "bad" ∧
    (run ⟨none, 0, [⟨0, .buffer [0x68, 0x69]⟩, ⟨100, .readErr "bad"⟩], none⟩).exitCode = 1 ∧
    loopOut 0 [⟨0, .buffer [0x68, 0x69]⟩, ⟨100, .readErr "bad"⟩] = "hi" := by
  have h := claim_C10_error_append ⟨none, 0, [⟨0, .buffer [0x68, 0x69]⟩, ⟨100, .readErr "bad"⟩],
    none⟩ "bad" rfl (by decide)
  exact ⟨h.1, h.2, by decide⟩

/-! ### Determinism (C9) -/

/-- The loop's output and abort status only depend on each check's poll
outcome and on whether that check fell inside the monitoring window. -/
theorem loop_congr (t01 t02 : Int) (l1 l2 : List Tick)
    (h : List.Forall₂
      (fun a b => a.ev = b.ev ∧ ((a.t - t01 < durationMs) ↔ (b.t - t02 < durationMs))) l1 l2) :
    loopOut t01 l1 = loopOut t02 l2 ∧ loopErr t01 l1 = loopErr t02 l2 := by
  induction h with
  | nil => exact ⟨rfl, rfl⟩
  | @cons a b r1 r2 hab htail ih =>
    obtain ⟨hev, hwiff⟩ := hab
    by_cases hw : a.t - t01 < durationMs
    · have hw2 : b.t - t02 < durationMs := hwiff.mp hw
      cases hevb : b.ev with
      | buffer bs =>
        have heva : a.ev = .buffer bs := by rw [hev, hevb]
        simp [loopOut, loopErr, hw, hw2, heva, hevb, ih.1, ih.2]
      | readErr m =>
        have heva : a.ev = .readErr m := by rw [hev, hevb]
        simp [loopOut, loopErr, hw, hw2, heva, hevb]
    · have hw2 : ¬ (b.t - t02 < durationMs) := fun hh => hw (hwiff.mpr hh)
      simp [loopOut, loopErr, hw, hw2]

/-- Claim C9: the run is deterministic in its observable inputs — two
environments with the same open and close outcomes and checkwise-matching
polls (same poll outcome, same in-window status) produce identical stdout,
exit status and close behaviour. -/
theorem claim_C9_deterministic (e1 e2 : Env)
    (hopen : e1.openErr = e2.openErr) (hclose : e1.closeErr = e2.closeErr)
    (hticks : List.Forall₂
      (fun a b => a.ev = b.ev ∧ ((a.t - e1.t0 < durationMs) ↔ (b.t - e2.t0 < durationMs)))
      e1.ticks e2.ticks) :
    run e1 = run e2 := by
  obtain ⟨hout, herr⟩ := loop_congr e1.t0 e2.t0 e1.ticks e2.ticks hticks
  rcases e1 with ⟨op1, t01, l1, cl1⟩
  rcases e2 with ⟨op2, t02, l2, cl2⟩
  simp only at hopen hclose hout herr
  subst hopen hclose
  cases op1 <;> cases cl1 <;> simp [run, herr, hout]

/-- Witness for C9: the same data arriving at different clock readings, both
inside the window, gives the same run outcome. -/
theorem claim_C9_witness :
    run ⟨none, 0, [⟨0, .buffer [0x41]⟩], none⟩ =
      run ⟨none, 5, [⟨9000, .buffer [0x41]⟩], none⟩ :=
  claim_C9_deterministic _ _ rfl rfl (List.Forall₂.cons ⟨rfl, by decide⟩ List.Forall₂.nil)

/-! ### Termination and timing (C6)

Idealised timing of one iteration: the body takes at most the read timeout
(`ser.read` returns at once when `in_waiting` bytes are buffered, and blocks
at most `timeout=1` seconds) plus the unconditional `time.sleep(0.1)`, and
at least the sleep itself; the first check follows the `start_time` reading
with no intervening sleep. -/

theorem stepOK_gapsOK (prev : Int) (l : List Tick) (h : stepOK prev l = true) :
    gapsOK prev l = true := by
  cases l with
  | nil => rfl
  | cons tk rest =>
    simp only [stepOK, gapsOK, Bool.and_eq_true] at h ⊢
    exact ⟨h.1.2, h.2⟩

theorem timesOK_gapsOK (t0 : Int) (l : List Tick) (h : timesOK t0 l = true) :
    gapsOK t0 l = true := by
  cases l with
  | nil => rfl
  | cons tk rest =>
    simp only [timesOK, gapsOK, Bool.and_eq_true] at h ⊢
    exact ⟨h.1.2, h.2⟩

/-- Checks at least a poll interval apart: once the remaining time budget is
`n` poll intervals, at most `n` more iterations are entered. -/
theorem loopIters_le (t0 : Int) :
    ∀ (ticks : List Tick) (prev : Int) (n : Nat), stepOK prev ticks = true →
      t0 + durationMs ≤ prev + n * pollMs → loopIters t0 ticks ≤ n := by
  intro ticks
  induction ticks with
  | nil => intro prev n _ _; simp [loopIters]
  | cons tk rest ih =>
    intro prev n hok hn
    simp only [stepOK, Bool.and_eq_true, decide_eq_true_eq] at hok
    obtain ⟨⟨h1, h2⟩, h3⟩ := hok
    simp only [durationMs, pollMs, timeoutMs] at hn h1 h2
    by_cases hw : tk.t - t0 < durationMs
    · have hw2 : tk.t - t0 < 10000 := by simpa [durationMs] using hw
      rcases n with _ | n2
      · exfalso
        push_cast at hn
        omega
      · cases hev : tk.ev with
        | buffer bs =>
          simp only [loopIters, hw, hev, if_true]
          have hrec := ih tk.t n2 h3 (by
            simp only [durationMs, pollMs]
            push_cast at hn ⊢
            omega)
          omega
        | readErr m =>
          simp only [loopIters, hw, hev, if_true]
          omega
    · simp [loopIters, hw]

/-- At most 101 iterations are ever entered under the clock discipline. -/
theorem loopIters_bound (t0 : Int) (ticks : List Tick) (h : timesOK t0 ticks = true) :
    loopIters t0 ticks ≤ 101 := by
  cases ticks with
  | nil => simp [loopIters]
  | cons tk rest =>
    simp only [timesOK, Bool.and_eq_true, decide_eq_true_eq] at h
    obtain ⟨⟨h1, h2⟩, h3⟩ := h
    by_cases hw : tk.t - t0 < durationMs
    · cases hev : tk.ev with
      | buffer bs =>
        simp only [loopIters, hw, hev, if_true]
        have hrec := loopIters_le t0 rest tk.t 100 h3 (by
          simp only [durationMs, pollMs]
          push_cast
          omega)
        omega
      | readErr m => simp [loopIters, hw, hev]
    · simp [loopIters, hw]

/-- Every entered iteration's check was strictly inside the monitoring
window: the condition is evaluated each iteration and stops the loop at the
first check with elapsed time at or past the duration. -/
theorem loopIters_in_window (t0 : Int) :
    ∀ ticks : List Tick, ∀ tk ∈ ticks.take (loopIters t0 ticks), tk.t - t0 < durationMs := by
  intro ticks
  induction ticks with
  | nil => simp
  | cons tk rest ih =>
    by_cases hw : tk.t - t0 < durationMs
    · cases hev : tk.ev with
      | buffer bs =>
        simp only [loopIters, hw, hev, if_true, List.take_succ_cons]
        intro x hx
        rcases List.mem_cons.mp hx with hx1 | hx2
        · rw [hx1]; exact hw
        · exact ih x hx2
      | readErr m =>
        simp only [loopIters, hw, hev, if_true, List.take_succ_cons, List.take_zero]
        intro x hx
        rcases List.mem_cons.mp hx with hx1 | hx2
        · rw [hx1]; exact hw
        · simp at hx2
    · simp [loopIters, hw]

/-- The check at which the loop stops happens within one iteration's worth
of time past the last in-window check. -/
theorem stop_time_aux (t0 : Int) :
    ∀ (ticks : List Tick) (prev : Int), gapsOK prev ticks = true → prev - t0 < durationMs →
      ∀ tk2, (ticks.drop (loopIters t0 ticks)).head? = some tk2 →
        tk2.t < t0 + durationMs + (timeoutMs + pollMs) := by
  intro ticks
  induction ticks with
  | nil => intro prev _ _ tk2 hh; simp at hh
  | cons tk rest ih =>
    intro prev hok hprev tk2 hh
    simp only [gapsOK, Bool.and_eq_true, decide_eq_true_eq] at hok
    obtain ⟨h2, h3⟩ := hok
    by_cases hw : tk.t - t0 < durationMs
    · cases hev : tk.ev with
      | buffer bs =>
        simp only [loopIters, hw, hev, if_true, List.drop_succ_cons] at hh
        exact ih tk.t (stepOK_gapsOK tk.t rest h3) hw tk2 hh
      | readErr m =>
        simp only [loopIters, hw, hev, if_true, List.drop_succ_cons, List.drop_zero] at hh
        cases rest with
        | nil => simp at hh
        | cons tk3 rest2 =>
          simp only [List.head?_cons, Option.some.injEq] at hh
          simp only [stepOK, Bool.and_eq_true, decide_eq_true_eq] at h3
          rw [← hh]
          have := h3.1.2
          simp only [durationMs, timeoutMs, pollMs] at *
          omega
    · simp only [loopIters, hw, if_false, List.drop_zero, List.head?_cons,
        Option.some.injEq] at hh
      rw [← hh]
      simp only [durationMs, timeoutMs, pollMs] at *
      omega

/-- Claim C6: under the idealised iteration timing, the loop enters at most
101 iterations, every entered iteration's check time is strictly within the
monitoring duration of the start, and the check at which the loop stops
(when the environment records it) happens before
start + duration + poll interval + read timeout. -/
theorem claim_C6_termination (t0 : Int) (ticks : List Tick) (h : timesOK t0 ticks = true) :
    loopIters t0 ticks ≤ 101 ∧
    (∀ tk ∈ ticks.take (loopIters t0 ticks), tk.t - t0 < durationMs) ∧
    (∀ tk2, (ticks.drop (loopIters t0 ticks)).head? = some tk2 →
      tk2.t < t0 + durationMs + pollMs + timeoutMs) := by
  refine ⟨loopIters_bound t0 ticks h, loopIters_in_window t0 ticks, ?_⟩
  intro tk2 hh
  have hb := stop_time_aux t0 ticks t0 (timesOK_gapsOK t0 ticks h)
    (by simp [durationMs]) tk2 hh
  simp only [durationMs, timeoutMs, pollMs] at *
  omega

/-- Witness for C6: checks every 1100 ms from the start; the loop enters the
ten in-window checks and stops at the check at 11000 ms. -/
theorem claim_C6_witness :
    timesOK 0 [⟨0, .buffer []⟩, ⟨1100, .buffer []⟩, ⟨2200, .buffer []⟩, ⟨3300, .buffer []⟩,
      ⟨4400, .buffer []⟩, ⟨5500, .buffer []⟩, ⟨6600, .buffer []⟩, ⟨7700, .buffer []⟩,
      ⟨8800, .buffer []⟩, ⟨9900, .buffer []⟩, ⟨11000, .buffer []⟩] = true ∧
    (loopIters 0 [⟨0, .buffer []⟩, ⟨1100, .buffer []⟩, ⟨2200, .buffer []⟩, ⟨3300, .buffer []⟩,
      ⟨4400, .buffer []⟩, ⟨5500, .buffer []⟩, ⟨6600, .buffer []⟩, ⟨7700, .buffer []⟩,
      ⟨8800, .buffer []⟩, ⟨9900, .buffer []⟩, ⟨11000, .buffer []⟩] ≤ 101 ∧
    (∀ tk ∈ ([⟨0, .buffer []⟩, ⟨1100, .buffer []⟩, ⟨2200, .buffer []⟩, ⟨3300, .buffer []⟩,
      ⟨4400, .buffer []⟩, ⟨5500, .buffer []⟩, ⟨6600, .buffer []⟩, ⟨7700, .buffer []⟩,
      ⟨8800, .buffer []⟩, ⟨9900, .buffer []⟩, ⟨11000, .buffer []⟩] : List Tick).take
        (loopIters 0 [⟨0, .buffer []⟩, ⟨1100, .buffer []⟩, ⟨2200, .buffer []⟩, ⟨3300, .buffer []⟩,
          ⟨4400, .buffer []⟩, ⟨5500, .buffer []⟩, ⟨6600, .buffer []⟩, ⟨7700, .buffer []⟩,
          ⟨8800, .buffer []⟩, ⟨9900, .buffer []⟩, ⟨11000, .buffer []⟩]),
      tk.t - 0 < durationMs) ∧
    (∀ tk2, (([⟨0, .buffer []⟩, ⟨1100, .buffer []⟩, ⟨2200, .buffer []⟩, ⟨3300, .buffer []⟩,
      ⟨4400, .buffer []⟩, ⟨5500, .buffer []⟩, ⟨6600, .buffer []⟩, ⟨7700, .buffer []⟩,
      ⟨8800, .buffer []⟩, ⟨9900, .buffer []⟩, ⟨11000, .buffer []⟩] : List Tick).drop
        (loopIters 0 [⟨0, .buffer []⟩, ⟨1100, .buffer []⟩, ⟨2200, .buffer []⟩, ⟨3300, .buffer []⟩,
          ⟨4400, .buffer []⟩, ⟨5500, .buffer []⟩, ⟨6600, .buffer []⟩, ⟨7700, .buffer []⟩,
          ⟨8800, .buffer []⟩, ⟨9900, .buffer []⟩, ⟨11000, .buffer []⟩])).head? = some tk2 →
      tk2.t < 0 + durationMs + pollMs + timeoutMs)) :=
  ⟨by decide, claim_C6_termination 0 _ (by decide)⟩
